import Mathlib

/-!
Verification development for the text-to-PNG rendering pipeline in
`src/app/api/text2png.png/route.ts`.

Strings of the source are modelled as `List Char` where we need to reason
about their characters (the parser input), and as Lean `String` where they
are only compared or concatenated (font family names, colors, paths).
JavaScript numbers holding text measurements are modelled as `ℚ`
(the source only adds, multiplies and takes `Math.ceil` of them);
integer-valued quantities (`fontSize`, `scale`, canvas dimensions) are `ℤ`.
The `canvas` rendering backend is abstracted as an environment supplying
`measureText` and the filesystem; drawing calls are recorded as an
operation trace.
-/

namespace TextPng

/-- A text run: `TextSegment` of the source (`{ text, isBold }`). -/
structure TextSegment where
  text : List Char
  isBold : Bool
deriving DecidableEq

/-- JavaScript `text.split(/__/)` specialised to a two-character delimiter
`a b`: greedy left-to-right non-overlapping splitting.  Always returns at
least one (possibly empty) part; `"".split` returns `[""]`. -/
def jsSplit2 (a b : Char) : List Char → List (List Char)
  | [] => [[]]
  | [c] => [[c]]
  | c :: c2 :: rest =>
    if c = a ∧ c2 = b then
      [] :: jsSplit2 a b rest
    else
      match jsSplit2 a b (c2 :: rest) with
      | [] => [[c]]
      | p :: ps => (c :: p) :: ps

/-- Number of (greedy, non-overlapping) occurrences of the delimiter `a b`
in a string. -/
def countDelim (a b : Char) : List Char → Nat
  | [] => 0
  | [_] => 0
  | c :: c2 :: rest =>
    if c = a ∧ c2 = b then
      1 + countDelim a b rest
    else
      countDelim a b (c2 :: rest)

/-- The string with every (greedy, non-overlapping) occurrence of the
delimiter `a b` deleted. -/
def removeDelim (a b : Char) : List Char → List Char
  | [] => []
  | [c] => [c]
  | c :: c2 :: rest =>
    if c = a ∧ c2 = b then
      removeDelim a b rest
    else
      c :: removeDelim a b (c2 :: rest)

/-- Joining a list of parts with the delimiter `a b` between consecutive
parts (the inverse of splitting). -/
def joinDelim (a b : Char) : List (List Char) → List Char
  | [] => []
  | [p] => p
  | p :: ps => p ++ a :: b :: joinDelim a b ps

/-- The `parts.forEach((part, index) => ...)` loop of `parseText`: keep the
non-empty parts in order, tagging the part at split index `i` as bold iff
`i % 2 === 1`. -/
def parseAux : Nat → List (List Char) → List TextSegment
  | _, [] => []
  | i, p :: ps =>
    (if p.length > 0 then [⟨p, i % 2 == 1⟩] else []) ++ parseAux (i + 1) ps

/-- `parseText` of the source: split on `/__/` and keep non-empty parts,
bold iff the split index is odd. -/
def parseText (text : List Char) : List TextSegment :=
  parseAux 0 (jsSplit2 '_' '_' text)

example : parseText "Hello".toList = [⟨"Hello".toList, false⟩] := by decide
example : parseText "A__B__C".toList =
    [⟨"A".toList, false⟩, ⟨"B".toList, true⟩, ⟨"C".toList, false⟩] := by decide
example : parseText "a__".toList = [⟨"a".toList, false⟩] := by decide
example : parseText "__".toList = [] := by decide
example : parseText "____x".toList = [⟨"x".toList, false⟩] := by decide
example : jsSplit2 '_' '_' "___".toList = [[], ['_']] := by decide
example : countDelim '_' '_' "___".toList = 1 := by decide

/-! ## Font registry -/

/-- An entry of `SUPPORTED_FONTS`: either a single file path used for both
weights, or distinct regular/bold paths. -/
inductive FontConfig where
  | single (path : String)
  | pair (regular bold : String)
deriving DecidableEq

/-- The `SUPPORTED_FONTS` table of the source, in declaration order. -/
def SUPPORTED_FONTS : List (String × FontConfig) :=
  [("Roboto", .pair "/fonts/Roboto/Roboto-VariableFont_wdth,wght.ttf"
      "/fonts/Roboto/Roboto-VariableFont_wdth,wght.ttf"),
   ("Roboto-Italic", .single "/fonts/Roboto/Roboto-Italic-VariableFont_wdth,wght.ttf"),
   ("Patua One", .single "/fonts/Patua_One/PatuaOne-Regular.ttf"),
   ("Suisse", .pair "/fonts/Suisse/suisse-intl-regular.ttf"
      "/fonts/Suisse/suisse-intl-bold.ttf")]

/-- `Object.keys(SUPPORTED_FONTS).join(', ')`. -/
def supportedFontNames : String :=
  String.intercalate ", " (SUPPORTED_FONTS.map (·.1))

/-- The module-level mutable state of the source (`registeredFonts`)
together with a log of the side effects performed against the filesystem
and the rendering backend.  `cache` models the `Set<string>`; `fsChecks`
records every `fs.existsSync` probe (the only filesystem access of
registration); `backendRegs` records every `registerFont(path, {family})`
call issued to the `canvas` backend. -/
structure FontState where
  cache : List String
  fsChecks : List String
  backendRegs : List (String × String)
deriving DecidableEq

/-- The initial process state: nothing registered. -/
def FontState.initial : FontState := ⟨[], [], []⟩

/-- The ambient environment of the pipeline: the working directory, the
filesystem, and the backend's `measureText` (determined by the active font
family, the font size and the text; it may fail, failures being carried as
thrown-error messages). -/
structure Env where
  cwd : String
  fileExists : String → Bool
  measureW : String → ℚ → List Char → Except String ℚ

/-- `path.join(process.cwd(), 'public', fontPath)` modelled as
concatenation (`fontPath` always begins with `/`). -/
def absoluteFontPath (env : Env) (fontPath : String) : String :=
  env.cwd ++ "/public" ++ fontPath

/-- The error message thrown for a family outside the allow-list. -/
def unsupportedMessage (fontFamily : String) : String :=
  "Font \"" ++ fontFamily ++ "\" is not supported. Supported fonts are: "
    ++ supportedFontNames

/-- `const cacheKey = fontFamily + (isBold ? '-bold' : '')`. -/
def cacheKeyOf (fontFamily : String) (isBold : Bool) : String :=
  fontFamily ++ (if isBold then "-bold" else "")

/-- The handle returned by registration: the registered family name,
`fontFamily + '-bold'` for the bold face (so the two faces never collide
in the backend's font table). -/
def handleOf (fontFamily : String) (isBold : Bool) : String :=
  if isBold then fontFamily ++ "-bold" else fontFamily

/-- Selecting the resource path from a `SUPPORTED_FONTS` entry. -/
def fontPathOf (fontConfig : FontConfig) (isBold : Bool) : String :=
  match fontConfig with
  | .single p => p
  | .pair regular bold => if isBold then bold else regular

/-- `registerLocalFont` of the source.  Returns the thrown error message or
the backend font-family handle, together with the updated state. -/
def registerLocalFont (env : Env) (fontFamily : String) (isBold : Bool)
    (s : FontState) : Except String String × FontState :=
  if cacheKeyOf fontFamily isBold ∈ s.cache then
    (.ok (handleOf fontFamily isBold), s)
  else
    match SUPPORTED_FONTS.lookup fontFamily with
    | none => (.error (unsupportedMessage fontFamily), s)
    | some fontConfig =>
      let path := absoluteFontPath env (fontPathOf fontConfig isBold)
      let s1 : FontState := { s with fsChecks := s.fsChecks ++ [path] }
      if env.fileExists path then
        (.ok (handleOf fontFamily isBold),
         { s1 with backendRegs := s1.backendRegs ++ [(path, handleOf fontFamily isBold)],
                   cache := s1.cache ++ [cacheKeyOf fontFamily isBold] })
      else
        (.error ("Font file not found: " ++ path), s1)

/-! ## Rendering pipeline (`GET`) -/

/-- The canvas drawing calls issued by the handler, in order.  Rectangles
always span the whole surface `(0, 0, width, height)` in the source, so
only the dimensions are recorded; `fillText` records the active font
family and size, the drawn text, and the pen position (the source always
draws with `fillStyle = 'black'` and `textBaseline = 'middle'`). -/
inductive CanvasOp where
  | clearRect (width height : ℤ)
  | fillRect (color : String) (width height : ℤ)
  | fillText (fontName : String) (fontSizePx : ℚ) (text : List Char) (x y : ℚ)
deriving DecidableEq

/-- A successfully rendered bitmap: its dimensions, the measured total
width, and the trace of drawing operations that produced it. -/
structure RenderOutput where
  width : ℤ
  height : ℤ
  totalWidth : ℚ
  ops : List CanvasOp
deriving DecidableEq

/-- The handler's response: a PNG built from a rendered bitmap, or the
JSON error payload with an HTTP status. -/
inductive Response where
  | png (out : RenderOutput)
  | jsonError (payload : String) (status : ℤ)
deriving DecidableEq

/-- The resolved request parameters (after defaulting). -/
structure Params where
  text : List Char
  fontFamily : String
  fontSize : ℤ
  backgroundColor : String
  scale : ℤ
deriving DecidableEq

/-- The measurement pass: `segments.forEach` accumulating
`totalWidth += ctx.measureText(segment.text).width` with the font set per
segment boldness. -/
def measureSegments (env : Env) (regularFontFamily boldFontFamily : String)
    (scaledFontSize : ℚ) : List TextSegment → Except String ℚ
  | [] => .ok 0
  | seg :: rest => do
    let w ← env.measureW (if seg.isBold then boldFontFamily else regularFontFamily)
      scaledFontSize seg.text
    let rest ← measureSegments env regularFontFamily boldFontFamily scaledFontSize rest
    .ok (w + rest)

/-- The drawing pass: `fillText` at the running cursor, then advance the
cursor by the re-measured segment width. -/
def drawSegments (env : Env) (regularFontFamily boldFontFamily : String)
    (scaledFontSize : ℚ) (x y : ℚ) : List TextSegment → Except String (List CanvasOp)
  | [] => .ok []
  | seg :: rest => do
    let fontName := if seg.isBold then boldFontFamily else regularFontFamily
    let w ← env.measureW fontName scaledFontSize seg.text
    let ops ← drawSegments env regularFontFamily boldFontFamily scaledFontSize (x + w) y rest
    .ok (CanvasOp.fillText fontName scaledFontSize seg.text x y :: ops)

/-- `const scaledFontSize = fontSize * scale`. -/
def scaledFontSize (p : Params) : ℤ := p.fontSize * p.scale

/-- `const basePadding = 8`. -/
def basePadding : ℤ := 8

/-- `const padding = basePadding * scale`. -/
def padding (p : Params) : ℤ := basePadding * p.scale

/-- `const width = Math.ceil(totalWidth + padding * 2)`. -/
def canvasWidth (p : Params) (totalWidth : ℚ) : ℤ :=
  ⌈totalWidth + (padding p : ℚ) * 2⌉

/-- `const height = Math.ceil(scaledFontSize + padding * 2)`. -/
def canvasHeight (p : Params) : ℤ :=
  ⌈(scaledFontSize p : ℚ) + (padding p : ℚ) * 2⌉

/-- The background step: fill the whole surface with `backgroundColor`
unless it is the literal string `"transparent"`. -/
def backgroundOps (backgroundColor : String) (width height : ℤ) : List CanvasOp :=
  if backgroundColor ≠ "transparent" then
    [CanvasOp.fillRect backgroundColor width height]
  else []

/-- The `GET` handler's try-block and catch-block over resolved parameters:
register both weights, parse, measure, size the canvas, clear, optionally
fill the background, draw the runs, and emit the bitmap; any thrown error
is caught and turned into the uniform 500 JSON response.  (State mutations
made before a throw survive, as the cache is module-level in the source.) -/
def GET (env : Env) (p : Params) (s : FontState) : Response × FontState :=
  match registerLocalFont env p.fontFamily false s with
  | (.error _, s1) => (.jsonError "Failed to generate image" 500, s1)
  | (.ok regularFontFamily, s1) =>
    match registerLocalFont env p.fontFamily true s1 with
    | (.error _, s2) => (.jsonError "Failed to generate image" 500, s2)
    | (.ok boldFontFamily, s2) =>
      match measureSegments env regularFontFamily boldFontFamily
          (scaledFontSize p : ℚ) (parseText p.text) with
      | .error _ => (.jsonError "Failed to generate image" 500, s2)
      | .ok totalWidth =>
        match drawSegments env regularFontFamily boldFontFamily
            (scaledFontSize p : ℚ) (padding p : ℚ)
            ((canvasHeight p : ℚ) / 2) (parseText p.text) with
        | .error _ => (.jsonError "Failed to generate image" 500, s2)
        | .ok textOps =>
          (.png ⟨canvasWidth p totalWidth, canvasHeight p, totalWidth,
            CanvasOp.clearRect (canvasWidth p totalWidth) (canvasHeight p) ::
              (backgroundOps p.backgroundColor (canvasWidth p totalWidth)
                  (canvasHeight p) ++ textOps)⟩, s2)

/-! ## Query-parameter extraction -/

/-- The raw query string parameters (`searchParams.get` returns `null`
when absent). -/
structure RawRequest where
  text : Option String
  font : Option String
  font_size : Option String
  background_color : Option String
  scale : Option String

/-- JavaScript `searchParams.get(k) || default`: `null` and the empty
string are falsy and fall back to the default. -/
def jsOrDefault (v : Option String) (d : String) : String :=
  match v with
  | none => d
  | some s => if s = "" then d else s

/-- The longest leading digit run interpreted as a number, `none` if there
is no leading digit. -/
def leadingNat (l : List Char) : Option ℕ :=
  match l.takeWhile Char.isDigit with
  | [] => none
  | ds => some (ds.foldl (fun a c => a * 10 + (c.toNat - '0'.toNat)) 0)

/-- JavaScript `parseInt(s, 10)`: skip leading whitespace, optional sign,
then the longest digit run; `none` models `NaN`. -/
def parseIntJS (s : String) : Option ℤ :=
  match s.toList.dropWhile (fun c => c = ' ' ∨ c = '\t' ∨ c = '\n' ∨ c = '\r') with
  | '-' :: rest => (leadingNat rest).map (fun n => -(n : ℤ))
  | '+' :: rest => (leadingNat rest).map (fun n => (n : ℤ))
  | l => (leadingNat l).map (fun n => (n : ℤ))

/-- Parameter extraction with defaults (lines 86-91 of the source).
Returns `none` when `parseInt` yields `NaN` for a numeric parameter (the
source then proceeds with `NaN` into arithmetic the canvas backend rejects;
no claim concerns that path). -/
def resolveParams (r : RawRequest) : Option Params := do
  let fontSize ← parseIntJS (jsOrDefault r.font_size "24")
  let scale ← parseIntJS (jsOrDefault r.scale "2")
  pure ⟨(jsOrDefault r.text "Hello World").toList,
    jsOrDefault r.font "Suisse",
    fontSize,
    jsOrDefault r.background_color "transparent",
    scale⟩

example : parseIntJS "24" = some 24 := by decide
example : parseIntJS "abc" = none := by decide
example : parseIntJS "-12px" = some (-12) := by decide

/-- A simple concrete environment for witnesses: all files exist,
measurement returns ten pixels per character. -/
def envTen : Env :=
  ⟨"", fun _ => true, fun _ _ t => .ok ((t.length : ℚ) * 10)⟩

/-- A concrete environment whose measurement is exactly linear in the font
size: half a pixel of advance per character per size unit. -/
def envLinear : Env :=
  ⟨"", fun _ => true, fun _ size t => .ok (size * (t.length : ℚ) / 2)⟩

/-! ## Lemmas about splitting -/

theorem jsSplit2_ne_nil (a b : Char) (l : List Char) : jsSplit2 a b l ≠ [] := by
  induction l using jsSplit2.induct a b with
  | case1 => simp [jsSplit2]
  | case2 c => simp [jsSplit2]
  | case3 c c2 rest h ih => simp [jsSplit2, if_pos h]
  | case4 c c2 rest h hx ih => exact absurd hx ih
  | case5 c c2 rest h p ps hx ih => simp [jsSplit2, if_neg h, hx]

theorem length_jsSplit2 (a b : Char) (l : List Char) :
    (jsSplit2 a b l).length = countDelim a b l + 1 := by
  induction l using jsSplit2.induct a b with
  | case1 => simp [jsSplit2, countDelim]
  | case2 c => simp [jsSplit2, countDelim]
  | case3 c c2 rest h ih =>
    simp only [jsSplit2, countDelim, if_pos h, List.length_cons, ih]
    omega
  | case4 c c2 rest h hx ih => exact absurd hx (jsSplit2_ne_nil a b _)
  | case5 c c2 rest h p ps hx ih =>
    simp only [jsSplit2, countDelim, if_neg h, hx, List.length_cons] at ih ⊢
    omega

theorem jsSplit2_of_countDelim_eq_zero (a b : Char) (l : List Char) :
    countDelim a b l = 0 → jsSplit2 a b l = [l] := by
  induction l using jsSplit2.induct a b with
  | case1 => simp [jsSplit2]
  | case2 c => simp [jsSplit2]
  | case3 c c2 rest h ih => simp [countDelim, if_pos h]
  | case4 c c2 rest h hx ih => exact fun _ => absurd hx (jsSplit2_ne_nil a b _)
  | case5 c c2 rest h p ps hx ih =>
    intro h0
    simp only [countDelim, if_neg h] at h0
    have := ih h0
    rw [hx] at this
    simp only [jsSplit2, if_neg h, hx]
    simp_all

/-- Splitting and rejoining with the delimiter restores the input: the
parts are produced by removing exactly the delimiter occurrences, in
order. -/
theorem joinDelim_jsSplit2 (a b : Char) (l : List Char) :
    joinDelim a b (jsSplit2 a b l) = l := by
  induction l using jsSplit2.induct a b with
  | case1 => simp [jsSplit2, joinDelim]
  | case2 c => simp [jsSplit2, joinDelim]
  | case3 c c2 rest h ih =>
    obtain ⟨q, qs, hq⟩ := List.exists_cons_of_ne_nil (jsSplit2_ne_nil a b rest)
    simp only [jsSplit2, if_pos h, hq] at ih ⊢
    simp_all [joinDelim, h.1, h.2]
  | case4 c c2 rest h hx ih => exact absurd hx (jsSplit2_ne_nil a b _)
  | case5 c c2 rest h p ps hx ih =>
    simp only [jsSplit2, if_neg h, hx] at ih ⊢
    cases ps with
    | nil => simp_all [joinDelim]
    | cons q qs => simp_all [joinDelim]

/-- Concatenating the split parts yields the input with all delimiter
occurrences deleted. -/
theorem flatten_jsSplit2 (a b : Char) (l : List Char) :
    (jsSplit2 a b l).flatten = removeDelim a b l := by
  induction l using jsSplit2.induct a b with
  | case1 => simp [jsSplit2, removeDelim]
  | case2 c => simp [jsSplit2, removeDelim]
  | case3 c c2 rest h ih => simp [jsSplit2, removeDelim, if_pos h, ih]
  | case4 c c2 rest h hx ih => exact absurd hx (jsSplit2_ne_nil a b _)
  | case5 c c2 rest h p ps hx ih =>
    simp only [jsSplit2, removeDelim, if_neg h, hx] at ih ⊢
    simp_all

/-- The first part of splitting `c2 :: rest` is empty or starts with
`c2`. -/
theorem jsSplit2_head_shape (a b c2 : Char) (rest : List Char) (p : List Char)
    (ps : List (List Char)) (hx : jsSplit2 a b (c2 :: rest) = p :: ps) :
    p = [] ∨ ∃ t, p = c2 :: t := by
  cases rest with
  | nil =>
    simp [jsSplit2] at hx
    exact Or.inr ⟨[], hx.1.symm⟩
  | cons c3 rest2 =>
    by_cases hd : c2 = a ∧ c3 = b
    · simp [jsSplit2, if_pos hd] at hx
      exact Or.inl hx.1
    · obtain ⟨q, qs, hq⟩ := List.exists_cons_of_ne_nil (jsSplit2_ne_nil a b (c3 :: rest2))
      simp [jsSplit2, if_neg hd, hq] at hx
      exact Or.inr ⟨q, hx.1.symm⟩

/-- No split part contains an occurrence of the delimiter: the input is
split on every occurrence. -/
theorem countDelim_of_mem_jsSplit2 (a b : Char) (l : List Char) :
    ∀ p ∈ jsSplit2 a b l, countDelim a b p = 0 := by
  induction l using jsSplit2.induct a b with
  | case1 => simp [jsSplit2, countDelim]
  | case2 c => simp [jsSplit2, countDelim]
  | case3 c c2 rest h ih =>
    intro p hp
    simp only [jsSplit2, if_pos h, List.mem_cons] at hp
    rcases hp with rfl | hp
    · simp [countDelim]
    · exact ih p hp
  | case4 c c2 rest h hx ih => exact absurd hx (jsSplit2_ne_nil a b _)
  | case5 c c2 rest h p ps hx ih =>
    intro q hq
    simp only [jsSplit2, if_neg h, hx, List.mem_cons] at hq
    rcases hq with rfl | hq
    · have hp0 : countDelim a b p = 0 := ih p (by simp [hx])
      rcases jsSplit2_head_shape a b c2 rest p ps hx with rfl | ⟨t, rfl⟩
      · simp [countDelim]
      · simpa [countDelim, if_neg h] using hp0
    · exact ih q (by simp [hx, hq])

/-! ## Lemmas about `parseAux` -/

theorem parseAux_cons (i : Nat) (p : List Char) (ps : List (List Char)) :
    parseAux i (p :: ps) =
      (if p.length > 0 then [⟨p, i % 2 == 1⟩] else []) ++ parseAux (i + 1) ps := rfl

/-- The `forEach` loop keeps exactly the non-empty parts in order, tagged
bold iff their split index is odd. -/
theorem parseAux_eq_filterMap (ps : List (List Char)) : ∀ i : Nat,
    parseAux i ps = (ps.enumFrom i).filterMap
      (fun pr => if pr.2.length > 0 then some ⟨pr.2, pr.1 % 2 == 1⟩ else none) := by
  induction ps with
  | nil => intro i; simp [parseAux]
  | cons p ps ih =>
    intro i
    simp only [parseAux, List.enumFrom, List.filterMap_cons, ih (i + 1)]
    split <;> simp_all

/-- Dropping empty parts does not change the concatenated text. -/
theorem flatten_map_text_parseAux (ps : List (List Char)) : ∀ i : Nat,
    ((parseAux i ps).map TextSegment.text).flatten = ps.flatten := by
  induction ps with
  | nil => intro i; simp [parseAux]
  | cons p ps ih =>
    intro i
    by_cases hp : p.length > 0
    · simp [parseAux, if_pos hp, ih (i + 1)]
    · have : p = [] := by simpa using hp
      simp [parseAux, if_neg hp, ih (i + 1), this]

/-- When the last part is non-empty, it is the last produced segment, with
the boldness of the last split index. -/
theorem parseAux_getLast (ps : List (List Char)) :
    ∀ (i : Nat) (lastPart : List Char),
    ps.getLast? = some lastPart → lastPart ≠ [] →
    (parseAux i ps).getLast? = some ⟨lastPart, (i + ps.length - 1) % 2 == 1⟩ := by
  induction ps with
  | nil => intro i lastPart h _; simp at h
  | cons p ps ih =>
    intro i lastPart h1 h2
    cases ps with
    | nil =>
      simp only [List.getLast?_singleton, Option.some.injEq] at h1
      subst h1
      simp [parseAux, List.length_pos.mpr h2]
    | cons q qs =>
      rw [List.getLast?_cons_cons] at h1
      have hrec := ih (i + 1) lastPart h1 h2
      have harith : i + 1 + (q :: qs).length - 1 = i + (p :: q :: qs).length - 1 := by
        simp only [List.length_cons]
        omega
      rw [harith] at hrec
      rw [parseAux_cons, List.getLast?_append, hrec]
      simp

/-! ## Lemmas about the registry and the pipeline -/

/-- A successful registration always hands back the family name, suffixed
with the bold marker iff the bold face was requested. -/
theorem registerLocalFont_ok_handle (env : Env) (fontFamily : String)
    (isBold : Bool) (s : FontState) (handle : String) (s' : FontState)
    (h : registerLocalFont env fontFamily isBold s = (.ok handle, s')) :
    handle = handleOf fontFamily isBold := by
  unfold registerLocalFont at h
  split at h
  · simp only [Prod.mk.injEq, Except.ok.injEq] at h
    exact h.1.symm
  · split at h
    · simp at h
    · dsimp only at h
      split at h
      · simp only [Prod.mk.injEq, Except.ok.injEq] at h
        exact h.1.symm
      · simp at h

/-- Every drawing-pass operation is a `fillText` at the given size and
vertical position. -/
theorem drawSegments_ops (env : Env) (regularFontFamily boldFontFamily : String)
    (scaledFontSize y : ℚ) :
    ∀ (segments : List TextSegment) (x : ℚ) (ops : List CanvasOp),
    drawSegments env regularFontFamily boldFontFamily scaledFontSize x y segments
      = .ok ops →
    ∀ op ∈ ops, ∃ fontName t x0,
      op = CanvasOp.fillText fontName scaledFontSize t x0 y := by
  intro segments
  induction segments with
  | nil =>
    intro x ops h
    simp only [drawSegments, Except.ok.injEq] at h
    subst h
    simp
  | cons seg rest ih =>
    intro x ops h
    simp only [drawSegments, bind, Except.bind] at h
    split at h
    · simp at h
    next w hw =>
      split at h
      · simp at h
      next tailOps htail =>
        simp only [Except.ok.injEq] at h
        subst h
        intro op hop
        rcases List.mem_cons.mp hop with rfl | hop
        · exact ⟨_, _, _, rfl⟩
        · exact ih (x + w) tailOps htail op hop

/-- Inversion of a successful request: the registrations, the measurement,
the drawing pass, and the exact shape of the produced bitmap. -/
theorem GET_png_inv (env : Env) (p : Params) (s : FontState) (out : RenderOutput)
    (s2 : FontState) (h : GET env p s = (.png out, s2)) :
    ∃ regularFontFamily boldFontFamily s1 totalWidth textOps,
      registerLocalFont env p.fontFamily false s = (.ok regularFontFamily, s1) ∧
      registerLocalFont env p.fontFamily true s1 = (.ok boldFontFamily, s2) ∧
      measureSegments env regularFontFamily boldFontFamily
        (scaledFontSize p : ℚ) (parseText p.text) = .ok totalWidth ∧
      drawSegments env regularFontFamily boldFontFamily
        (scaledFontSize p : ℚ) (padding p : ℚ) ((canvasHeight p : ℚ) / 2)
        (parseText p.text) = .ok textOps ∧
      out = ⟨canvasWidth p totalWidth, canvasHeight p, totalWidth,
        CanvasOp.clearRect (canvasWidth p totalWidth) (canvasHeight p) ::
          (backgroundOps p.backgroundColor (canvasWidth p totalWidth)
              (canvasHeight p) ++ textOps)⟩ := by
  unfold GET at h
  split at h
  next s1x hreg1 => simp at h
  next regF s1 hreg1 =>
    split at h
    next s2x hreg2 => simp at h
    next boldF s2x hreg2 =>
      split at h
      next hms => simp at h
      next tw hms =>
        split at h
        next hds => simp at h
        next textOps hds =>
          rw [Prod.mk.injEq] at h
          obtain ⟨hpng, rfl⟩ := h
          rw [Response.png.injEq] at hpng
          exact ⟨regF, boldF, s1, tw, textOps, hreg1, hreg2, hms, hds, hpng.symm⟩

/-- A measurement backend whose advance widths are linear in the font
size. -/
def LinearMeasure (env : Env) : Prop :=
  ∀ (fontName : String) (c size : ℚ) (t : List Char), 0 ≤ c →
    env.measureW fontName (c * size) t = (env.measureW fontName size t).map (fun w => c * w)

theorem measureSegments_linear (env : Env) (hlin : LinearMeasure env)
    (rf bf : String) (c size : ℚ) (hc : 0 ≤ c) (segments : List TextSegment) :
    measureSegments env rf bf (c * size) segments =
      (measureSegments env rf bf size segments).map (fun w => c * w) := by
  induction segments with
  | nil => simp [measureSegments, Except.map]
  | cons seg rest ih =>
    simp only [measureSegments, bind, Except.bind]
    rw [hlin _ c size _ hc]
    cases hw : env.measureW (if seg.isBold then bf else rf) size seg.text with
    | error e => simp [Except.map]
    | ok w =>
      simp only [Except.map]
      rw [ih]
      cases hrest : measureSegments env rf bf size rest with
      | error e => simp [Except.map]
      | ok wr => simp [Except.map, mul_add]

theorem ceil_mul_le (k : ℤ) (hk : 0 ≤ k) (x : ℚ) : ⌈(k : ℚ) * x⌉ ≤ k * ⌈x⌉ := by
  rw [Int.ceil_le]
  push_cast
  exact mul_le_mul_of_nonneg_left (Int.le_ceil x) (by exact_mod_cast hk)

theorem mul_ceil_le (k : ℤ) (hk : 1 ≤ k) (x : ℚ) :
    k * ⌈x⌉ ≤ ⌈(k : ℚ) * x⌉ + (k - 1) := by
  have hkq : (1 : ℚ) ≤ (k : ℚ) := by exact_mod_cast hk
  have h1 : (k : ℚ) * (⌈x⌉ : ℚ) < (k : ℚ) * x + (k : ℚ) := by
    have hc := Int.ceil_lt_add_one x
    nlinarith
  have h2 : (k : ℚ) * x ≤ ((⌈(k : ℚ) * x⌉ : ℤ) : ℚ) := Int.le_ceil _
  have h3 : ((k * ⌈x⌉ : ℤ) : ℚ) < ((⌈(k : ℚ) * x⌉ + k : ℤ) : ℚ) := by
    push_cast
    linarith
  have h4 : k * ⌈x⌉ < ⌈(k : ℚ) * x⌉ + k := by exact_mod_cast h3
  omega

/-- The canvas height is an exact integer: the ceiling never rounds. -/
theorem canvasHeight_int (p : Params) :
    canvasHeight p = scaledFontSize p + padding p * 2 := by
  unfold canvasHeight
  rw [show (scaledFontSize p : ℚ) + (padding p : ℚ) * 2
      = ((scaledFontSize p + padding p * 2 : ℤ) : ℚ) by push_cast; ring]
  exact Int.ceil_intCast _

/-! ## Concrete witness data -/

def suisseRegularPath : String := "/public/fonts/Suisse/suisse-intl-regular.ttf"

def suisseBoldPath : String := "/public/fonts/Suisse/suisse-intl-bold.ttf"

/-- The registry state after registering the Suisse regular face from a
fresh process. -/
def suisseState : FontState :=
  ⟨["Suisse"], [suisseRegularPath], [(suisseRegularPath, "Suisse")]⟩

/-- The registry state after registering both Suisse faces from a fresh
process. -/
def suisseBothState : FontState :=
  ⟨["Suisse", "Suisse-bold"], [suisseRegularPath, suisseBoldPath],
   [(suisseRegularPath, "Suisse"), (suisseBoldPath, "Suisse-bold")]⟩

/-- A request whose text consists of a single delimiter: zero runs. -/
def pEmptyRuns : Params := ⟨"__".toList, "Suisse", 24, "transparent", 2⟩

/-- The bitmap produced for `pEmptyRuns` under `envTen`. -/
def outEmpty : RenderOutput := ⟨32, 80, 0, [.clearRect 32 80]⟩

/-- A request with a red background. -/
def pRed : Params := ⟨"Hi".toList, "Suisse", 24, "red", 2⟩

/-- The bitmap produced for `pRed` under `envTen`. -/
def outRed : RenderOutput :=
  ⟨52, 80, 20, [.clearRect 52 80, .fillRect "red" 52 80,
    .fillText "Suisse" 48 "Hi".toList 16 40]⟩

/-- A request for a family outside the allow-list. -/
def pArial : Params := ⟨"Hi".toList, "Arial", 24, "transparent", 2⟩

/-- A one-character request at scale 1. -/
def pBase : Params := ⟨"a".toList, "Suisse", 1, "transparent", 1⟩

/-- The same request at scale 4. -/
def pQuad : Params := ⟨"a".toList, "Suisse", 1, "transparent", 4⟩

/-- The bitmap for `pBase` under `envLinear`. -/
def outBase : RenderOutput :=
  ⟨17, 17, 1/2, [.clearRect 17 17, .fillText "Suisse" 1 "a".toList 8 (17/2)]⟩

/-- The bitmap for `pQuad` under `envLinear`. -/
def outQuad : RenderOutput :=
  ⟨66, 68, 2, [.clearRect 66 68, .fillText "Suisse" 4 "a".toList 32 34]⟩

/-- A zero-run request with a red background. -/
def pRedEmpty : Params := ⟨"__".toList, "Suisse", 24, "red", 2⟩

/-- The bitmap produced for `pRedEmpty` under `envTen`. -/
def outRedEmpty : RenderOutput :=
  ⟨32, 80, 0, [.clearRect 32 80, .fillRect "red" 32 80]⟩

/-- A zero-run request at scale 1 and font size 1. -/
def pScale1 : Params := ⟨"__".toList, "Suisse", 1, "transparent", 1⟩

/-- The same request at scale 4. -/
def pScale4 : Params := ⟨"__".toList, "Suisse", 1, "transparent", 4⟩

/-- The bitmap for `pScale1` under `envLinear`. -/
def outScale1 : RenderOutput := ⟨16, 17, 0, [.clearRect 16 17]⟩

/-- The bitmap for `pScale4` under `envLinear`. -/
def outScale4 : RenderOutput := ⟨64, 68, 0, [.clearRect 64 68]⟩


/-! ## Claim theorems -/

/-- C1 (amended): `parseText` splits its input on every occurrence of the
two-character delimiter `__` (the split parts rejoin to the input with the
delimiter and contain no delimiter occurrence), returns in order exactly
the non-empty parts, each tagged bold iff its split index is odd; a string
with zero delimiter occurrences yields one non-bold run equal to the input
when non-empty; and a string with an odd number of delimiter occurrences
ends with a trailing bold run provided the final split part is non-empty
(the unamended claim fails when the final part is empty). -/
theorem parseText_split_alternation (l : List Char) :
    (parseText l = ((jsSplit2 '_' '_' l).enum.filterMap fun pr =>
        if pr.2.length > 0 then some ⟨pr.2, pr.1 % 2 == 1⟩ else none))
    ∧ joinDelim '_' '_' (jsSplit2 '_' '_' l) = l
    ∧ (∀ p ∈ jsSplit2 '_' '_' l, countDelim '_' '_' p = 0)
    ∧ (countDelim '_' '_' l = 0 → l ≠ [] → parseText l = [⟨l, false⟩])
    ∧ (countDelim '_' '_' l % 2 = 1 →
        ∀ lastPart, (jsSplit2 '_' '_' l).getLast? = some lastPart → lastPart ≠ [] →
          (parseText l).getLast? = some ⟨lastPart, true⟩) := by
  refine ⟨?_, joinDelim_jsSplit2 _ _ _, countDelim_of_mem_jsSplit2 _ _ _, ?_, ?_⟩
  · rw [parseText, parseAux_eq_filterMap, List.enum]
  · intro h0 hne
    rw [parseText, jsSplit2_of_countDelim_eq_zero _ _ _ h0]
    simp [parseAux, List.length_pos.mpr hne]
  · intro hodd lastPart hlast hne
    have := parseAux_getLast (jsSplit2 '_' '_' l) 0 lastPart hlast hne
    rw [parseText, this]
    have hlen := length_jsSplit2 '_' '_' l
    congr 2
    rw [hlen]
    simp [Nat.add_sub_cancel]
    omega

/-- C9: concatenating the text of the runs of `parseText` in output order
equals the input with every delimiter occurrence removed: no text outside
the delimiters is lost or reordered. -/
theorem parseText_concat_removeDelim (l : List Char) :
    ((parseText l).map TextSegment.text).flatten = removeDelim '_' '_' l := by
  rw [parseText, flatten_map_text_parseAux, flatten_jsSplit2]

/-- C2: for every successfully rendered request the bitmap dimensions
satisfy `width = ceil(totalWidth + 2 * (8 * scale))` and
`height = ceil(fontSize * scale + 2 * (8 * scale))`, where `totalWidth`
is the sum of the per-run measured widths at the scaled font size
`fontSize * scale` under the registered fonts. -/
theorem GET_canvas_geometry (env : Env) (p : Params) (s : FontState) (out : RenderOutput)
    (s2 : FontState) (h : GET env p s = (.png out, s2)) :
    ∃ regularFontFamily boldFontFamily s1,
      registerLocalFont env p.fontFamily false s = (.ok regularFontFamily, s1) ∧
      registerLocalFont env p.fontFamily true s1 = (.ok boldFontFamily, s2) ∧
      measureSegments env regularFontFamily boldFontFamily
        ((p.fontSize * p.scale : ℤ) : ℚ) (parseText p.text) = .ok out.totalWidth ∧
      out.width = ⌈out.totalWidth + 2 * ((8 * p.scale : ℤ) : ℚ)⌉ ∧
      out.height = ⌈((p.fontSize * p.scale : ℤ) : ℚ) + 2 * ((8 * p.scale : ℤ) : ℚ)⌉ := by
  obtain ⟨rf, bf, s1, tw, textOps, h1, h2, h3, h4, h5⟩ := GET_png_inv env p s out s2 h
  subst h5
  refine ⟨rf, bf, s1, h1, h2, ?_, ?_, ?_⟩
  · simpa [scaledFontSize] using h3
  · show canvasWidth p tw = _
    simp only [canvasWidth, padding, basePadding]
    congr 1
    ring
  · show canvasHeight p = _
    simp only [canvasHeight, padding, basePadding, scaledFontSize]
    congr 1
    ring

/-- C3: registration is idempotent: when a first call succeeds, a second
call with the same `(family, isBold)` pair returns the same handle and
leaves the state (the cache and the logs of filesystem probes and backend
registrations) completely unchanged. -/
theorem registerLocalFont_idempotent (env : Env) (fontFamily : String) (isBold : Bool)
    (s s' : FontState) (handle : String)
    (h : registerLocalFont env fontFamily isBold s = (.ok handle, s')) :
    registerLocalFont env fontFamily isBold s' = (.ok handle, s') := by
  have hmem : cacheKeyOf fontFamily isBold ∈ s'.cache := by
    unfold registerLocalFont at h
    split at h
    next hc =>
      simp only [Prod.mk.injEq, Except.ok.injEq] at h
      exact h.2 ▸ hc
    next hc =>
      split at h
      · simp at h
      · dsimp only at h
        split at h
        · simp only [Prod.mk.injEq, Except.ok.injEq] at h
          rw [← h.2]
          simp
        · simp at h
  have hh : handle = handleOf fontFamily isBold :=
    registerLocalFont_ok_handle env fontFamily isBold s handle s' h
  unfold registerLocalFont
  rw [if_pos hmem, hh]

/-- C4: for a family outside the allow-list (and not already cached),
registration fails with the unsupported-font error whose message lists the
supported families, and the request produces the error response instead of
a bitmap. -/
theorem registerLocalFont_unsupported (env : Env) (p : Params) (s : FontState)
    (hsup : SUPPORTED_FONTS.lookup p.fontFamily = none)
    (hc : p.fontFamily ∉ s.cache) :
    registerLocalFont env p.fontFamily false s =
      (.error (unsupportedMessage p.fontFamily), s) ∧
    unsupportedMessage p.fontFamily =
      "Font \"" ++ p.fontFamily ++ "\" is not supported. Supported fonts are: "
        ++ "Roboto, Roboto-Italic, Patua One, Suisse" ∧
    GET env p s = (.jsonError "Failed to generate image" 500, s) := by
  have hkey : cacheKeyOf p.fontFamily false ∉ s.cache := by
    simpa [cacheKeyOf] using hc
  have hreg : registerLocalFont env p.fontFamily false s =
      (.error (unsupportedMessage p.fontFamily), s) := by
    unfold registerLocalFont
    rw [if_neg hkey, hsup]
  refine ⟨hreg, ?_, ?_⟩
  · rfl
  · unfold GET
    rw [hreg]

/-- C5: when `backgroundColor` is the literal `"transparent"` the surface
receives no background fill (the trace is the clear followed only by text
draws); for any other value the whole surface is filled with that color
after the clear and before any text is drawn. -/
theorem GET_background_fill (env : Env) (p : Params) (s : FontState) (out : RenderOutput)
    (s2 : FontState) (h : GET env p s = (.png out, s2)) :
    ∃ textOps,
      (∀ op ∈ textOps, ∃ fontName t x,
        op = CanvasOp.fillText fontName ((scaledFontSize p : ℤ) : ℚ) t x
          ((out.height : ℚ) / 2)) ∧
      (p.backgroundColor = "transparent" →
        out.ops = CanvasOp.clearRect out.width out.height :: textOps) ∧
      (p.backgroundColor ≠ "transparent" →
        out.ops = CanvasOp.clearRect out.width out.height ::
          CanvasOp.fillRect p.backgroundColor out.width out.height :: textOps) := by
  obtain ⟨rf, bf, s1, tw, textOps, h1, h2, h3, h4, h5⟩ := GET_png_inv env p s out s2 h
  subst h5
  refine ⟨textOps, ?_, ?_, ?_⟩
  · intro op hop
    obtain ⟨f, t, x0, hx⟩ := drawSegments_ops env rf bf (scaledFontSize p : ℚ)
      ((canvasHeight p : ℚ) / 2) (parseText p.text) (padding p : ℚ) textOps h4 op hop
    exact ⟨f, t, x0, hx⟩
  · intro hbg
    simp [backgroundOps, hbg]
  · intro hbg
    simp [backgroundOps, hbg]

/-- C6: the handler is total and never propagates a failure: every request
yields either a PNG response or exactly the uniform opaque error response
`{error: "Failed to generate image"}` with status 500, which carries no
image bytes and no internal error detail. -/
theorem GET_never_throws (env : Env) (p : Params) (s : FontState) :
    (∃ out, (GET env p s).1 = .png out) ∨
    (GET env p s).1 = .jsonError "Failed to generate image" 500 := by
  unfold GET
  repeat' split
  all_goals first
    | (right; rfl)
    | (left; exact ⟨_, rfl⟩)

/-- C7: every absent request parameter resolves to its documented default:
text `"Hello World"`, font `"Suisse"`, font_size `24`,
background_color `"transparent"`, scale `2`. -/
theorem resolveParams_defaults (r : RawRequest) (p : Params) (h : resolveParams r = some p) :
    (r.text = none → p.text = "Hello World".toList) ∧
    (r.font = none → p.fontFamily = "Suisse") ∧
    (r.font_size = none → p.fontSize = 24) ∧
    (r.background_color = none → p.backgroundColor = "transparent") ∧
    (r.scale = none → p.scale = 2) := by
  unfold resolveParams at h
  cases hfs : parseIntJS (jsOrDefault r.font_size "24") with
  | none => rw [hfs] at h; simp at h
  | some fontSize =>
    cases hsc : parseIntJS (jsOrDefault r.scale "2") with
    | none => rw [hfs, hsc] at h; simp at h
    | some scale =>
      rw [hfs, hsc] at h
      simp only [bind, Option.bind, Option.pure_def, Option.some.injEq] at h
      subst h
      refine ⟨?_, ?_, ?_, ?_, ?_⟩
      · intro hn; simp [jsOrDefault, hn]
      · intro hn; simp [jsOrDefault, hn]
      · intro hn
        rw [hn] at hfs
        have : parseIntJS (jsOrDefault none "24") = some 24 := by decide
        rw [this] at hfs
        simpa using hfs.symm
      · intro hn; simp [jsOrDefault, hn]
      · intro hn
        rw [hn] at hsc
        have : parseIntJS (jsOrDefault none "2") = some 2 := by decide
        rw [this] at hsc
        simpa using hsc.symm

/-- C8 (amended): holding the request fixed and multiplying the scale by
an integer `k ≥ 1`, under a measurement backend linear in the font size,
multiplies the canvas height exactly by `k` and the canvas width by `k`
within `k - 1` pixels of ceiling rounding (for `k = 2` this is the claimed
±1 px; the unamended ±1 bound fails for larger `k`). -/
theorem GET_scale_factor (env : Env) (p p2 : Params) (k : ℤ) (s s2 : FontState)
    (out out2 : RenderOutput) (sx sy : FontState)
    (hlin : LinearMeasure env) (hk : 1 ≤ k)
    (hp : p2 = { p with scale := k * p.scale })
    (h1 : GET env p s = (.png out, sx))
    (h2 : GET env p2 s2 = (.png out2, sy)) :
    out2.height = k * out.height ∧
    out2.width ≤ k * out.width ∧ k * out.width ≤ out2.width + (k - 1) := by
  obtain ⟨rf1, bf1, t1, tw1, ops1, hr1, hb1, hm1, hd1, ho1⟩ := GET_png_inv env p s out sx h1
  obtain ⟨rf2, bf2, t2, tw2, ops2, hr2, hb2, hm2, hd2, ho2⟩ := GET_png_inv env p2 s2 out2 sy h2
  subst ho1
  subst ho2
  have e1 : rf1 = handleOf p.fontFamily false :=
    registerLocalFont_ok_handle _ _ _ _ _ _ hr1
  have e2 : bf1 = handleOf p.fontFamily true :=
    registerLocalFont_ok_handle _ _ _ _ _ _ hb1
  have e3 : rf2 = handleOf p2.fontFamily false :=
    registerLocalFont_ok_handle _ _ _ _ _ _ hr2
  have e4 : bf2 = handleOf p2.fontFamily true :=
    registerLocalFont_ok_handle _ _ _ _ _ _ hb2
  have hfam : p2.fontFamily = p.fontFamily := by rw [hp]
  have htxt : p2.text = p.text := by rw [hp]
  have hkq : (0 : ℚ) ≤ (k : ℚ) := by exact_mod_cast (by omega : (0 : ℤ) ≤ k)
  have hsfs : (scaledFontSize p2 : ℚ) = (k : ℚ) * (scaledFontSize p : ℚ) := by
    rw [hp]
    simp only [scaledFontSize]
    push_cast
    ring
  have hm2x := hm2
  rw [e1, e2] at hm1
  rw [e3, e4, hfam, htxt, hsfs] at hm2x
  rw [measureSegments_linear env hlin _ _ (k : ℚ) _ hkq, hm1] at hm2x
  simp only [Except.map, Except.ok.injEq] at hm2x
  have hpad : padding p2 = k * padding p := by
    rw [hp]
    simp only [padding, basePadding]
    ring
  refine ⟨?_, ?_, ?_⟩
  · show canvasHeight p2 = k * canvasHeight p
    rw [canvasHeight_int, canvasHeight_int, hpad,
      show scaledFontSize p2 = k * scaledFontSize p by rw [hp]; simp only [scaledFontSize]; ring]
    ring
  · have harg : tw2 + (padding p2 : ℚ) * 2 = (k : ℚ) * (tw1 + (padding p : ℚ) * 2) := by
      rw [← hm2x, hpad]
      push_cast
      ring
    show canvasWidth p2 tw2 ≤ k * canvasWidth p tw1
    unfold canvasWidth
    rw [harg]
    exact ceil_mul_le k (by omega) _
  · have harg : tw2 + (padding p2 : ℚ) * 2 = (k : ℚ) * (tw1 + (padding p : ℚ) * 2) := by
      rw [← hm2x, hpad]
      push_cast
      ring
    show k * canvasWidth p tw1 ≤ canvasWidth p2 tw2 + (k - 1)
    unfold canvasWidth
    rw [harg]
    exact mul_ceil_le k hk _

/-- C10 (amended): when the text parses to zero runs and font resolution
succeeds for both weights, the pipeline does not fail and produces a
bitmap with `totalWidth = 0`, `width = 16 * scale`,
`height = fontSize * scale + 16 * scale`, and no glyph drawn (the
unamended claim fails when font resolution fails, e.g. an unsupported
family). -/
theorem GET_zero_runs (env : Env) (p : Params) (s s1 s2 : FontState)
    (regularFontFamily boldFontFamily : String)
    (hseg : parseText p.text = [])
    (h1 : registerLocalFont env p.fontFamily false s = (.ok regularFontFamily, s1))
    (h2 : registerLocalFont env p.fontFamily true s1 = (.ok boldFontFamily, s2)) :
    ∃ out, GET env p s = (.png out, s2) ∧
      out.totalWidth = 0 ∧
      out.width = 16 * p.scale ∧
      out.height = p.fontSize * p.scale + 16 * p.scale ∧
      ∀ fontName sz t x y, CanvasOp.fillText fontName sz t x y ∉ out.ops := by
  have hw : canvasWidth p 0 = 16 * p.scale := by
    simp only [canvasWidth, padding, basePadding]
    rw [show (0 : ℚ) + ((8 * p.scale : ℤ) : ℚ) * 2 = ((16 * p.scale : ℤ) : ℚ) by push_cast; ring]
    exact Int.ceil_intCast _
  have hh : canvasHeight p = p.fontSize * p.scale + 16 * p.scale := by
    simp only [canvasHeight, padding, basePadding, scaledFontSize]
    rw [show ((p.fontSize * p.scale : ℤ) : ℚ) + ((8 * p.scale : ℤ) : ℚ) * 2
        = ((p.fontSize * p.scale + 16 * p.scale : ℤ) : ℚ) by push_cast; ring]
    exact Int.ceil_intCast _
  have hGET : GET env p s = (.png ⟨canvasWidth p 0, canvasHeight p, 0,
      CanvasOp.clearRect (canvasWidth p 0) (canvasHeight p) ::
        backgroundOps p.backgroundColor (canvasWidth p 0) (canvasHeight p)⟩, s2) := by
    unfold GET
    simp only [h1, h2, hseg, measureSegments, drawSegments, List.append_nil]
  refine ⟨_, hGET, rfl, hw, hh, ?_⟩
  intro fontName sz t x y hmem
  simp only [List.mem_cons] at hmem
  rcases hmem with hx | hx
  · exact CanvasOp.noConfusion hx
  · unfold backgroundOps at hx
    split at hx <;> simp_all

/-! ## Witnesses and counterexamples -/

/-- C1 witness: the zero-delimiter and odd-delimiter conclusions evaluated
at concrete inputs. -/
theorem parseText_split_alternation_witness :
    parseText "abc".toList = [⟨"abc".toList, false⟩] ∧
    (parseText "a__b".toList).getLast? = some ⟨"b".toList, true⟩ :=
  ⟨(parseText_split_alternation "abc".toList).2.2.2.1 (by decide) (by decide),
   (parseText_split_alternation "a__b".toList).2.2.2.2 (by decide) "b".toList
     (by decide) (by decide)⟩

/-- C1 counterexample to the unamended claim: `"a__"` has an odd number of
delimiter occurrences yet its parse ends with a non-bold run. -/
theorem parseText_trailing_bold_cex :
    countDelim '_' '_' "a__".toList % 2 = 1 ∧
    parseText "a__".toList = [⟨"a".toList, false⟩] := by decide

/-- C2 witness: the geometry conclusion evaluated on a concrete rendered
request. -/
theorem GET_canvas_geometry_witness :
    GET envTen pEmptyRuns FontState.initial = (.png outEmpty, suisseBothState) ∧
    (∃ regularFontFamily boldFontFamily s1,
      registerLocalFont envTen pEmptyRuns.fontFamily false FontState.initial
        = (.ok regularFontFamily, s1) ∧
      registerLocalFont envTen pEmptyRuns.fontFamily true s1
        = (.ok boldFontFamily, suisseBothState) ∧
      measureSegments envTen regularFontFamily boldFontFamily
        ((pEmptyRuns.fontSize * pEmptyRuns.scale : ℤ) : ℚ) (parseText pEmptyRuns.text)
        = .ok outEmpty.totalWidth ∧
      outEmpty.width = ⌈outEmpty.totalWidth + 2 * ((8 * pEmptyRuns.scale : ℤ) : ℚ)⌉ ∧
      outEmpty.height = ⌈((pEmptyRuns.fontSize * pEmptyRuns.scale : ℤ) : ℚ)
        + 2 * ((8 * pEmptyRuns.scale : ℤ) : ℚ)⌉) := by
  have hEval : GET envTen pEmptyRuns FontState.initial
      = (.png outEmpty, suisseBothState) := by
    unfold GET
    simp only [show registerLocalFont envTen pEmptyRuns.fontFamily false FontState.initial
        = (.ok "Suisse", suisseState) from rfl,
      show registerLocalFont envTen pEmptyRuns.fontFamily true suisseState
        = (.ok "Suisse-bold", suisseBothState) from rfl,
      show parseText pEmptyRuns.text = [] from rfl,
      measureSegments, drawSegments, List.append_nil]
    norm_num [canvasWidth, canvasHeight, padding, basePadding, scaledFontSize,
      pEmptyRuns, outEmpty, backgroundOps]
  exact ⟨hEval, GET_canvas_geometry envTen pEmptyRuns FontState.initial outEmpty
    suisseBothState hEval⟩

/-- C3 witness: re-registering the Suisse regular face returns the cached
handle and the unchanged state. -/
theorem registerLocalFont_idempotent_witness :
    registerLocalFont envTen "Suisse" false suisseState = (.ok "Suisse", suisseState) :=
  registerLocalFont_idempotent envTen "Suisse" false FontState.initial suisseState
    "Suisse" rfl

/-- C4 witness: requesting the family `"Arial"` fails with the message
listing the allow-list and yields the error response. -/
theorem registerLocalFont_unsupported_witness :
    registerLocalFont envTen pArial.fontFamily false FontState.initial =
      (.error (unsupportedMessage pArial.fontFamily), FontState.initial) ∧
    unsupportedMessage pArial.fontFamily =
      "Font \"" ++ pArial.fontFamily ++ "\" is not supported. Supported fonts are: "
        ++ "Roboto, Roboto-Italic, Patua One, Suisse" ∧
    GET envTen pArial FontState.initial =
      (.jsonError "Failed to generate image" 500, FontState.initial) :=
  registerLocalFont_unsupported envTen pArial FontState.initial rfl (by simp [pArial, FontState.initial])

/-- C5 witness: a red background produces a full-surface fill right after
the clear and before any text. -/
theorem GET_background_fill_witness :
    GET envTen pRedEmpty FontState.initial = (.png outRedEmpty, suisseBothState) ∧
    (∃ textOps,
      (∀ op ∈ textOps, ∃ fontName t x,
        op = CanvasOp.fillText fontName ((scaledFontSize pRedEmpty : ℤ) : ℚ) t x
          ((outRedEmpty.height : ℚ) / 2)) ∧
      (pRedEmpty.backgroundColor = "transparent" →
        outRedEmpty.ops = CanvasOp.clearRect outRedEmpty.width outRedEmpty.height :: textOps) ∧
      (pRedEmpty.backgroundColor ≠ "transparent" →
        outRedEmpty.ops = CanvasOp.clearRect outRedEmpty.width outRedEmpty.height ::
          CanvasOp.fillRect pRedEmpty.backgroundColor outRedEmpty.width outRedEmpty.height ::
            textOps)) := by
  have hEval : GET envTen pRedEmpty FontState.initial
      = (.png outRedEmpty, suisseBothState) := by
    unfold GET
    simp only [show registerLocalFont envTen pRedEmpty.fontFamily false FontState.initial
        = (.ok "Suisse", suisseState) from rfl,
      show registerLocalFont envTen pRedEmpty.fontFamily true suisseState
        = (.ok "Suisse-bold", suisseBothState) from rfl,
      show parseText pRedEmpty.text = [] from rfl,
      measureSegments, drawSegments, List.append_nil]
    norm_num [canvasWidth, canvasHeight, padding, basePadding, scaledFontSize,
      pRedEmpty, outRedEmpty, backgroundOps]
    decide
  exact ⟨hEval, GET_background_fill envTen pRedEmpty FontState.initial outRedEmpty
    suisseBothState hEval⟩

/-- C7 witness: the all-absent request resolves to exactly the documented
defaults. -/
theorem resolveParams_defaults_witness :
    ∃ p, resolveParams ⟨none, none, none, none, none⟩ = some p ∧
      p.text = "Hello World".toList ∧ p.fontFamily = "Suisse" ∧ p.fontSize = 24 ∧
      p.backgroundColor = "transparent" ∧ p.scale = 2 := by
  have h : resolveParams ⟨none, none, none, none, none⟩ =
      some ⟨"Hello World".toList, "Suisse", 24, "transparent", 2⟩ := by decide
  have hc := resolveParams_defaults ⟨none, none, none, none, none⟩
    ⟨"Hello World".toList, "Suisse", 24, "transparent", 2⟩ h
  exact ⟨_, h, hc.1 rfl, hc.2.1 rfl, hc.2.2.1 rfl, hc.2.2.2.1 rfl, hc.2.2.2.2 rfl⟩

/-- C8 witness: at `k = 4` under a linear backend the height scales
exactly and the width lands within the proved ceiling bounds. -/
theorem GET_scale_factor_witness :
    outScale4.height = 4 * outScale1.height ∧
    outScale4.width ≤ 4 * outScale1.width ∧
    4 * outScale1.width ≤ outScale4.width + (4 - 1) := by
  have h1 : GET envLinear pScale1 FontState.initial
      = (.png outScale1, suisseBothState) := by
    unfold GET
    simp only [show registerLocalFont envLinear pScale1.fontFamily false FontState.initial
        = (.ok "Suisse", suisseState) from rfl,
      show registerLocalFont envLinear pScale1.fontFamily true suisseState
        = (.ok "Suisse-bold", suisseBothState) from rfl,
      show parseText pScale1.text = [] from rfl,
      measureSegments, drawSegments, List.append_nil]
    norm_num [canvasWidth, canvasHeight, padding, basePadding, scaledFontSize,
      pScale1, outScale1, backgroundOps]
  have h2 : GET envLinear pScale4 FontState.initial
      = (.png outScale4, suisseBothState) := by
    unfold GET
    simp only [show registerLocalFont envLinear pScale4.fontFamily false FontState.initial
        = (.ok "Suisse", suisseState) from rfl,
      show registerLocalFont envLinear pScale4.fontFamily true suisseState
        = (.ok "Suisse-bold", suisseBothState) from rfl,
      show parseText pScale4.text = [] from rfl,
      measureSegments, drawSegments, List.append_nil]
    norm_num [canvasWidth, canvasHeight, padding, basePadding, scaledFontSize,
      pScale4, outScale4, backgroundOps]
  exact GET_scale_factor envLinear pScale1 pScale4 4 FontState.initial FontState.initial
    outScale1 outScale4 suisseBothState suisseBothState
    (by intro fontName c size t hc
        simp only [envLinear, Except.map]
        rw [Except.ok.injEq]
        ring)
    (by omega) (by decide) h1 h2

/-- C8 counterexample to the unamended ±1 claim: with a perfectly linear
backend, quadrupling the scale yields width 66 against `4 * 17 = 68`, two
pixels apart. -/
theorem GET_scale_factor_cex :
    GET envLinear pBase FontState.initial = (.png outBase, suisseBothState) ∧
    GET envLinear pQuad FontState.initial = (.png outQuad, suisseBothState) ∧
    pQuad = { pBase with scale := 4 * pBase.scale } ∧
    ¬ |outQuad.width - 4 * outBase.width| ≤ 1 := by
  have hmsB : measureSegments envLinear "Suisse" "Suisse-bold"
      ((scaledFontSize pBase : ℤ) : ℚ) (parseText pBase.text) = .ok (1/2) := by
    simp [measureSegments, envLinear, bind, Except.bind,
      show parseText pBase.text = [⟨"a".toList, false⟩] from rfl]
    norm_num [scaledFontSize, pBase]
  have hhB : canvasHeight pBase = 17 := by
    norm_num [canvasHeight, padding, basePadding, scaledFontSize, pBase]
  have hdsB : drawSegments envLinear "Suisse" "Suisse-bold"
      ((scaledFontSize pBase : ℤ) : ℚ) ((padding pBase : ℤ) : ℚ)
      (((canvasHeight pBase : ℤ) : ℚ) / 2) (parseText pBase.text)
      = .ok [CanvasOp.fillText "Suisse" 1 "a".toList 8 (17/2)] := by
    simp [drawSegments, envLinear, bind, Except.bind,
      show parseText pBase.text = [⟨"a".toList, false⟩] from rfl, hhB]
    norm_num [scaledFontSize, padding, basePadding, pBase]
  have hmsQ : measureSegments envLinear "Suisse" "Suisse-bold"
      ((scaledFontSize pQuad : ℤ) : ℚ) (parseText pQuad.text) = .ok 2 := by
    simp [measureSegments, envLinear, bind, Except.bind,
      show parseText pQuad.text = [⟨"a".toList, false⟩] from rfl]
    norm_num [scaledFontSize, pQuad]
  have hhQ : canvasHeight pQuad = 68 := by
    norm_num [canvasHeight, padding, basePadding, scaledFontSize, pQuad]
  have hdsQ : drawSegments envLinear "Suisse" "Suisse-bold"
      ((scaledFontSize pQuad : ℤ) : ℚ) ((padding pQuad : ℤ) : ℚ)
      (((canvasHeight pQuad : ℤ) : ℚ) / 2) (parseText pQuad.text)
      = .ok [CanvasOp.fillText "Suisse" 4 "a".toList 32 34] := by
    simp [drawSegments, envLinear, bind, Except.bind,
      show parseText pQuad.text = [⟨"a".toList, false⟩] from rfl, hhQ]
    norm_num [scaledFontSize, padding, basePadding, pQuad]
  refine ⟨?_, ?_, by decide, by decide⟩
  · unfold GET
    simp only [show registerLocalFont envLinear pBase.fontFamily false FontState.initial
        = (.ok "Suisse", suisseState) from rfl,
      show registerLocalFont envLinear pBase.fontFamily true suisseState
        = (.ok "Suisse-bold", suisseBothState) from rfl, hmsB, hdsB]
    norm_num [canvasWidth, canvasHeight, padding, basePadding, scaledFontSize,
      pBase, outBase, backgroundOps, Int.ceil_eq_iff]
  · unfold GET
    simp only [show registerLocalFont envLinear pQuad.fontFamily false FontState.initial
        = (.ok "Suisse", suisseState) from rfl,
      show registerLocalFont envLinear pQuad.fontFamily true suisseState
        = (.ok "Suisse-bold", suisseBothState) from rfl, hmsQ, hdsQ]
    norm_num [canvasWidth, canvasHeight, padding, basePadding, scaledFontSize,
      pQuad, outQuad, backgroundOps]

/-- C10 witness: the zero-run conclusion evaluated on the request whose
text is a single delimiter. -/
theorem GET_zero_runs_witness :
    ∃ out, GET envTen pEmptyRuns FontState.initial = (.png out, suisseBothState) ∧
      out.totalWidth = 0 ∧
      out.width = 16 * pEmptyRuns.scale ∧
      out.height = pEmptyRuns.fontSize * pEmptyRuns.scale + 16 * pEmptyRuns.scale ∧
      ∀ fontName sz t x y, CanvasOp.fillText fontName sz t x y ∉ out.ops :=
  GET_zero_runs envTen pEmptyRuns FontState.initial suisseState suisseBothState
    "Suisse" "Suisse-bold" rfl rfl rfl

/-- C10 counterexample to the unamended claim: a zero-run text with an
unsupported family still fails, producing the error response instead of a
bitmap. -/
theorem GET_zero_runs_cex :
    parseText "__".toList = [] ∧
    GET envTen { pArial with text := "__".toList } FontState.initial
      = (.jsonError "Failed to generate image" 500, FontState.initial) := ⟨rfl, rfl⟩

end TextPng
